import Mathlib

/-!
Shallow embedding of the `CreditLineFHE` Solidity contract
(`contract CreditLineFHE is SepoliaConfig`).

Modelling conventions:
* `euint32` ciphertexts are modelled by their plaintext semantics: natural
  numbers, with `FHE.add` / `FHE.sub` acting as wrap-around arithmetic
  modulo `2 ^ 32` (`fheAdd` / `fheSub`).  `FHE.asEuint32 0` is `0`.
* Solidity `mapping`s are total functions with the zero value as default,
  matching EVM storage semantics (`mapUpdate` is assignment).
* `address` and `uint256` are `Nat`.
* Each external function becomes `State → args → State × Option Err`:
  statements execute in order, mutating the state component, and a failing
  `require` (or a reverting `FHE.checkSignatures`) aborts, returning the
  state as mutated so far together with the error.  Since the EVM rolls a
  reverted call back entirely, this model agrees with the EVM exactly when
  every mutation happens after all the checks; proving that an erroring
  call returns the input state unchanged is therefore a statement about
  the contract's statement ordering.
* `block.timestamp` and the request id returned by `FHE.requestDecryption`
  are external inputs, passed as parameters.
* `FHE.checkSignatures(requestId, cleartexts, proof)` is an opaque external
  verification that either passes or reverts; it is modelled by a `Bool`
  parameter `proofOk` giving its outcome for the supplied triple.
* `abi.decode(cleartexts, (uint32[]))` yields the two decoded `uint32`
  values; they are passed as the parameters `c0, c1` (each `< 2 ^ 32`
  whenever the cleartexts are well-typed).
-/

namespace CreditLineFHE

/-- Wrap-around semantics of `FHE.add` on `euint32`. -/
def fheAdd (a b : Nat) : Nat := (a + b) % 2 ^ 32

/-- Wrap-around semantics of `FHE.sub` on `euint32`. -/
def fheSub (a b : Nat) : Nat := (2 ^ 32 + a % 2 ^ 32 - b % 2 ^ 32) % 2 ^ 32

/-- Assignment to a Solidity mapping slot. -/
def mapUpdate {α : Type} (m : Nat → α) (k : Nat) (v : α) : Nat → α :=
  fun k' => if k' = k then v else m k'

/-- `struct EncryptedCreditLine`. -/
structure EncryptedCreditLine where
  lineId : Nat
  bankAddress : Nat
  encryptedAmount : Nat
  encryptedUtilized : Nat
  timestamp : Nat
  isActive : Bool
deriving Repr, DecidableEq

/-- `struct AggregatedResult`. -/
structure AggregatedResult where
  totalAvailable : Nat
  totalUtilized : Nat
  isRevealed : Bool
deriving Repr, DecidableEq

/-- The zero value of `EncryptedCreditLine`, the content of an unassigned
mapping slot. -/
def defaultLine : EncryptedCreditLine :=
  { lineId := 0, bankAddress := 0, encryptedAmount := 0, encryptedUtilized := 0,
    timestamp := 0, isActive := false }

/-- The contract's storage. -/
structure State where
  lineCount : Nat
  encryptedLines : Nat → EncryptedCreditLine
  aggregatedResult : AggregatedResult
  encryptedTotalAvailable : Nat
  encryptedTotalUtilized : Nat
  aggregator : Nat
  enterprise : Nat
  requestToAggregationId : Nat → Nat

/-- The revert reasons the contract can produce. -/
inductive Err where
  /-- `require(msg.sender == aggregator, "Caller not authorized")`. -/
  | CallerNotAuthorized
  /-- `require(msg.sender == enterprise, "Enterprise only")`. -/
  | EnterpriseOnly
  /-- `require(!aggregatedResult.isRevealed, "Already revealed")`. -/
  | AlreadyRevealed
  /-- `require(requestToAggregationId[requestId] == 1, "Invalid request")`. -/
  | InvalidRequest
  /-- `FHE.checkSignatures` reverted. -/
  | InvalidProof
  /-- `require(encryptedLines[lineId].isActive, "Line already inactive")`. -/
  | LineAlreadyInactive
deriving Repr, DecidableEq

/-- The constructor: `aggregator = msg.sender; enterprise = _enterprise;`
both accumulators start at `FHE.asEuint32(0)`. -/
def initialState (deployer _enterprise : Nat) : State :=
  { lineCount := 0
    encryptedLines := fun _ => defaultLine
    aggregatedResult := { totalAvailable := 0, totalUtilized := 0, isRevealed := false }
    encryptedTotalAvailable := 0
    encryptedTotalUtilized := 0
    aggregator := deployer
    enterprise := _enterprise
    requestToAggregationId := fun _ => 0 }

/-- `_updateAggregatedTotals(uint256 lineId)`: folds
`encryptedLines[lineId]` into both accumulators. -/
def _updateAggregatedTotals (s : State) (lineId : Nat) : State :=
  let line := s.encryptedLines lineId
  { s with
    encryptedTotalAvailable := fheAdd s.encryptedTotalAvailable line.encryptedAmount
    encryptedTotalUtilized := fheAdd s.encryptedTotalUtilized line.encryptedUtilized }

/-- `addEncryptedCreditLine(bankAddress, encryptedAmount, encryptedUtilized)`,
gated by `onlyAggregator`; `ts` is `block.timestamp`. -/
def addEncryptedCreditLine (s : State) (sender bankAddress encryptedAmount
    encryptedUtilized ts : Nat) : State × Option Err :=
  if sender = s.aggregator then
    let newLineId := s.lineCount + 1
    let s1 : State :=
      { s with
        lineCount := s.lineCount + 1
        encryptedLines := mapUpdate s.encryptedLines newLineId
          { lineId := newLineId
            bankAddress := bankAddress
            encryptedAmount := encryptedAmount
            encryptedUtilized := encryptedUtilized
            timestamp := ts
            isActive := true } }
    ( _updateAggregatedTotals s1 newLineId, none)
  else (s, some .CallerNotAuthorized)

/-- `requestAggregation()`, gated by `onlyEnterprise`; `reqId` is the handle
returned by `FHE.requestDecryption`. -/
def requestAggregation (s : State) (sender reqId : Nat) : State × Option Err :=
  if sender = s.enterprise then
    if s.aggregatedResult.isRevealed then (s, some .AlreadyRevealed)
    else
      ({ s with requestToAggregationId := mapUpdate s.requestToAggregationId reqId 1 }, none)
  else (s, some .EnterpriseOnly)

/-- `handleAggregationResult(requestId, cleartexts, proof)`; `proofOk` is the
outcome of `FHE.checkSignatures` and `c0, c1` the two `uint32` values that
`abi.decode` extracts from `cleartexts`. -/
def handleAggregationResult (s : State) (requestId c0 c1 : Nat) (proofOk : Bool) :
    State × Option Err :=
  if s.requestToAggregationId requestId = 1 then
    if s.aggregatedResult.isRevealed then (s, some .AlreadyRevealed)
    else if proofOk then
      ({ s with aggregatedResult :=
          { totalAvailable := c0, totalUtilized := c1, isRevealed := true } }, none)
    else (s, some .InvalidProof)
  else (s, some .InvalidRequest)

/-- `getAggregationResult()`, a view gated by `onlyEnterprise`. -/
def getAggregationResult (s : State) (sender : Nat) :
    Except Err (Nat × Nat × Bool) :=
  if sender = s.enterprise then
    .ok (s.aggregatedResult.totalAvailable, s.aggregatedResult.totalUtilized,
         s.aggregatedResult.isRevealed)
  else .error .EnterpriseOnly

/-- `deactivateCreditLine(uint256 lineId)`, gated by `onlyAggregator`. -/
def deactivateCreditLine (s : State) (sender lineId : Nat) : State × Option Err :=
  if sender = s.aggregator then
    if (s.encryptedLines lineId).isActive then
      let line := s.encryptedLines lineId
      ({ s with
          encryptedTotalAvailable := fheSub s.encryptedTotalAvailable line.encryptedAmount
          encryptedTotalUtilized := fheSub s.encryptedTotalUtilized line.encryptedUtilized
          encryptedLines := mapUpdate s.encryptedLines lineId { line with isActive := false } },
        none)
    else (s, some .LineAlreadyInactive)
  else (s, some .CallerNotAuthorized)

/-- `getCreditLineInfo(uint256 lineId)`, a view gated by `onlyEnterprise`. -/
def getCreditLineInfo (s : State) (sender lineId : Nat) :
    Except Err (Nat × Nat × Bool) :=
  if sender = s.enterprise then
    let line := s.encryptedLines lineId
    .ok (line.bankAddress, line.timestamp, line.isActive)
  else .error .EnterpriseOnly

/-- `transferEnterpriseOwnership(address newEnterprise)`, gated by
`onlyEnterprise`. -/
def transferEnterpriseOwnership (s : State) (sender newEnterprise : Nat) :
    State × Option Err :=
  if sender = s.enterprise then ({ s with enterprise := newEnterprise }, none)
  else (s, some .EnterpriseOnly)

/-- One successful external call.  Inputs of Solidity type `euint32` or
decoded `uint32` are constrained to `< 2 ^ 32`.  Erroring calls are not
steps: they return the input state unchanged (proved below), so they do not
enlarge the set of reachable states. -/
inductive Step : State → State → Prop where
  | add (s : State) (sender bank a u ts : Nat) (ha : a < 2 ^ 32) (hu : u < 2 ^ 32)
      (h : (addEncryptedCreditLine s sender bank a u ts).2 = none) :
      Step s (addEncryptedCreditLine s sender bank a u ts).1
  | deactivate (s : State) (sender lineId : Nat)
      (h : (deactivateCreditLine s sender lineId).2 = none) :
      Step s (deactivateCreditLine s sender lineId).1
  | request (s : State) (sender reqId : Nat)
      (h : (requestAggregation s sender reqId).2 = none) :
      Step s (requestAggregation s sender reqId).1
  | handle (s : State) (requestId c0 c1 : Nat) (proofOk : Bool)
      (hc0 : c0 < 2 ^ 32) (hc1 : c1 < 2 ^ 32)
      (h : (handleAggregationResult s requestId c0 c1 proofOk).2 = none) :
      Step s (handleAggregationResult s requestId c0 c1 proofOk).1
  | transfer (s : State) (sender newEnterprise : Nat)
      (h : (transferEnterpriseOwnership s sender newEnterprise).2 = none) :
      Step s (transferEnterpriseOwnership s sender newEnterprise).1

/-- A state is reachable when some constructor arguments lead to it by a
sequence of successful calls. -/
def Reachable (s : State) : Prop :=
  ∃ d e, Relation.ReflTransGen Step (initialState d e) s

/-- Sum of the projection `p` over the active records among ids `1 .. n`. -/
def activeSum (p : EncryptedCreditLine → Nat) (lines : Nat → EncryptedCreditLine)
    (n : Nat) : Nat :=
  (Finset.range n).sum fun i =>
    if (lines (i + 1)).isActive then p (lines (i + 1)) else 0

/-- Sum of `encryptedAmount` over the records with `isActive = true`
(record ids run from `1` to `lineCount`). -/
def activeAmountSum (s : State) : Nat :=
  activeSum (fun l => l.encryptedAmount) s.encryptedLines s.lineCount

/-- Sum of `encryptedUtilized` over the records with `isActive = true`. -/
def activeUtilizedSum (s : State) : Nat :=
  activeSum (fun l => l.encryptedUtilized) s.encryptedLines s.lineCount

/-- The inductive invariant: both accumulators are the homomorphic image
(value modulo `2 ^ 32`) of the active-record sums, and active records only
live at ids `1 .. lineCount`. -/
def Inv (s : State) : Prop :=
  s.encryptedTotalAvailable = activeAmountSum s % 2 ^ 32 ∧
  s.encryptedTotalUtilized = activeUtilizedSum s % 2 ^ 32 ∧
  ∀ i, (s.encryptedLines i).isActive = true → 1 ≤ i ∧ i ≤ s.lineCount

lemma mapUpdate_self {α : Type} (m : Nat → α) (k : Nat) (v : α) :
    mapUpdate m k v k = v := by
  simp [mapUpdate]

lemma mapUpdate_ne {α : Type} (m : Nat → α) (k k' : Nat) (v : α) (h : k' ≠ k) :
    mapUpdate m k v k' = m k' := by
  simp [mapUpdate, h]

lemma fheAdd_mod (S a : Nat) : fheAdd (S % 2 ^ 32) a = (S + a) % 2 ^ 32 := by
  unfold fheAdd; omega

lemma fheSub_cancel (R b : Nat) : fheSub ((R + b) % 2 ^ 32) b = R % 2 ^ 32 := by
  unfold fheSub; omega

lemma activeSum_extend (p : EncryptedCreditLine → Nat) (lines : Nat → EncryptedCreditLine)
    (n : Nat) (nl : EncryptedCreditLine) (hact : nl.isActive = true) :
    activeSum p (mapUpdate lines (n + 1) nl) (n + 1) = activeSum p lines n + p nl := by
  unfold activeSum
  rw [Finset.sum_range_succ]
  congr 1
  · refine Finset.sum_congr rfl fun i hi => ?_
    have hne : i + 1 ≠ n + 1 := by
      simp only [Finset.mem_range] at hi; omega
    rw [mapUpdate_ne _ _ _ _ hne]
  · rw [mapUpdate_self]
    simp [hact]

lemma activeSum_deactivate (p : EncryptedCreditLine → Nat)
    (lines : Nat → EncryptedCreditLine) (n lineId : Nat)
    (hge : 1 ≤ lineId) (hle : lineId ≤ n)
    (hact : (lines lineId).isActive = true) :
    activeSum p lines n =
      activeSum p (mapUpdate lines lineId { lines lineId with isActive := false }) n
        + p (lines lineId) := by
  unfold activeSum
  have hj : lineId - 1 ∈ Finset.range n := by
    simp only [Finset.mem_range]; omega
  rw [← Finset.sum_erase_add _ _ hj, ← Finset.sum_erase_add _ _ hj]
  have hid : lineId - 1 + 1 = lineId := by omega
  have hcongr : ∀ i ∈ (Finset.range n).erase (lineId - 1),
      (if (mapUpdate lines lineId { lines lineId with isActive := false } (i + 1)).isActive
        then p (mapUpdate lines lineId { lines lineId with isActive := false } (i + 1)) else 0)
      = (if (lines (i + 1)).isActive then p (lines (i + 1)) else 0) := by
    intro i hi
    have hne : i + 1 ≠ lineId := by
      rcases Finset.mem_erase.mp hi with ⟨hne', hmem⟩
      omega
    rw [mapUpdate_ne _ _ _ _ hne]
  rw [Finset.sum_congr rfl hcongr, hid, mapUpdate_self, hact]
  simp

lemma inv_init (d e : Nat) : Inv (initialState d e) := by
  refine ⟨rfl, rfl, fun i hi => ?_⟩
  simp [initialState, defaultLine] at hi

lemma inv_step {s s' : State} (hs : Step s s') (hinv : Inv s) : Inv s' := by
  obtain ⟨h1, h2, h3⟩ := hinv
  cases hs with
  | add sender bank a u ts ha hu h =>
    by_cases hc : sender = s.aggregator
    · simp only [addEncryptedCreditLine, if_pos hc, _updateAggregatedTotals, mapUpdate_self]
      unfold Inv
      refine ⟨?_, ?_, ?_⟩
      · show fheAdd s.encryptedTotalAvailable a =
          activeSum (fun l => l.encryptedAmount)
            (mapUpdate s.encryptedLines (s.lineCount + 1)
              ⟨s.lineCount + 1, bank, a, u, ts, true⟩) (s.lineCount + 1) % 2 ^ 32
        rw [activeSum_extend _ _ _ _ rfl, h1]
        exact fheAdd_mod _ _
      · show fheAdd s.encryptedTotalUtilized u =
          activeSum (fun l => l.encryptedUtilized)
            (mapUpdate s.encryptedLines (s.lineCount + 1)
              ⟨s.lineCount + 1, bank, a, u, ts, true⟩) (s.lineCount + 1) % 2 ^ 32
        rw [activeSum_extend _ _ _ _ rfl, h2]
        exact fheAdd_mod _ _
      · intro i hi
        have hi' : (mapUpdate s.encryptedLines (s.lineCount + 1)
            ⟨s.lineCount + 1, bank, a, u, ts, true⟩ i).isActive = true := hi
        show 1 ≤ i ∧ i ≤ s.lineCount + 1
        by_cases hik : i = s.lineCount + 1
        · omega
        · rw [mapUpdate_ne _ _ _ _ hik] at hi'
          have := h3 i hi'
          omega
    · simp [addEncryptedCreditLine, hc] at h
  | deactivate sender lineId h =>
    by_cases hc : sender = s.aggregator
    · by_cases hact : (s.encryptedLines lineId).isActive
      · simp only [deactivateCreditLine, if_pos hc, if_pos hact]
        obtain ⟨hge, hle⟩ := h3 lineId hact
        unfold Inv
        refine ⟨?_, ?_, ?_⟩
        · show fheSub s.encryptedTotalAvailable (s.encryptedLines lineId).encryptedAmount =
            activeSum (fun l => l.encryptedAmount)
              (mapUpdate s.encryptedLines lineId
                { s.encryptedLines lineId with isActive := false }) s.lineCount % 2 ^ 32
          rw [h1]
          unfold activeAmountSum
          rw [activeSum_deactivate (fun l => l.encryptedAmount)
            s.encryptedLines s.lineCount lineId hge hle hact]
          exact fheSub_cancel _ _
        · show fheSub s.encryptedTotalUtilized (s.encryptedLines lineId).encryptedUtilized =
            activeSum (fun l => l.encryptedUtilized)
              (mapUpdate s.encryptedLines lineId
                { s.encryptedLines lineId with isActive := false }) s.lineCount % 2 ^ 32
          rw [h2]
          unfold activeUtilizedSum
          rw [activeSum_deactivate (fun l => l.encryptedUtilized)
            s.encryptedLines s.lineCount lineId hge hle hact]
          exact fheSub_cancel _ _
        · intro i hi
          have hi' : (mapUpdate s.encryptedLines lineId
              { s.encryptedLines lineId with isActive := false } i).isActive = true := hi
          show 1 ≤ i ∧ i ≤ s.lineCount
          by_cases hik : i = lineId
          · subst hik
            rw [mapUpdate_self] at hi'
            simp at hi'
          · rw [mapUpdate_ne _ _ _ _ hik] at hi'
            exact h3 i hi'
      · simp [deactivateCreditLine, hc, hact] at h
    · simp [deactivateCreditLine, hc] at h
  | request sender reqId h =>
    by_cases hc : sender = s.enterprise
    · by_cases hrev : s.aggregatedResult.isRevealed
      · simp [requestAggregation, hc, hrev] at h
      · simp only [requestAggregation, if_pos hc, if_neg hrev]
        exact ⟨h1, h2, h3⟩
    · simp [requestAggregation, hc] at h
  | handle requestId c0 c1 proofOk hc0 hc1 h =>
    by_cases hreq : s.requestToAggregationId requestId = 1
    · by_cases hrev : s.aggregatedResult.isRevealed
      · simp [handleAggregationResult, hreq, hrev] at h
      · by_cases hp : proofOk
        · simp only [handleAggregationResult, if_pos hreq, if_neg hrev, if_pos hp]
          exact ⟨h1, h2, h3⟩
        · simp [handleAggregationResult, hreq, hrev, hp] at h
    · simp [handleAggregationResult, hreq] at h
  | transfer sender newEnterprise h =>
    by_cases hc : sender = s.enterprise
    · simp only [transferEnterpriseOwnership, if_pos hc]
      exact ⟨h1, h2, h3⟩
    · simp [transferEnterpriseOwnership, hc] at h

lemma inv_reachable {s : State} (h : Reachable s) : Inv s := by
  obtain ⟨d, e, hre⟩ := h
  induction hre with
  | refl => exact inv_init d e
  | tail hpre hstep ih => exact inv_step hstep ih

lemma step_result_of_revealed {s s' : State} (hs : Step s s')
    (hrev : s.aggregatedResult.isRevealed = true) :
    s'.aggregatedResult = s.aggregatedResult := by
  cases hs with
  | add sender bank a u ts ha hu h =>
    by_cases hc : sender = s.aggregator
    · simp [addEncryptedCreditLine, hc, _updateAggregatedTotals]
    · simp [addEncryptedCreditLine, hc] at h
  | deactivate sender lineId h =>
    by_cases hc : sender = s.aggregator
    · by_cases hact : (s.encryptedLines lineId).isActive
      · simp [deactivateCreditLine, hc, hact]
      · simp [deactivateCreditLine, hc, hact] at h
    · simp [deactivateCreditLine, hc] at h
  | request sender reqId h =>
    by_cases hc : sender = s.enterprise
    · simp [requestAggregation, hc, hrev] at h
    · simp [requestAggregation, hc] at h
  | handle requestId c0 c1 proofOk hc0 hc1 h =>
    by_cases hreq : s.requestToAggregationId requestId = 1
    · simp [handleAggregationResult, hreq, hrev] at h
    · simp [handleAggregationResult, hreq] at h
  | transfer sender newEnterprise h =>
    by_cases hc : sender = s.enterprise
    · simp [transferEnterpriseOwnership, hc]
    · simp [transferEnterpriseOwnership, hc] at h

lemma reach_result_of_revealed {s s' : State}
    (h : Relation.ReflTransGen Step s s')
    (hrev : s.aggregatedResult.isRevealed = true) :
    s'.aggregatedResult = s.aggregatedResult := by
  induction h with
  | refl => rfl
  | tail hpre hstep ih =>
    have hmid : _ := ih
    have : _ := step_result_of_revealed hstep (by rw [hmid]; exact hrev)
    rw [this, hmid]

lemma step_requestId_preserved {s s' : State} (r : Nat) (hs : Step s s')
    (hr : s.requestToAggregationId r = 1) :
    s'.requestToAggregationId r = 1 := by
  cases hs with
  | add sender bank a u ts ha hu h =>
    by_cases hc : sender = s.aggregator
    · simp only [addEncryptedCreditLine, if_pos hc, _updateAggregatedTotals]
      exact hr
    · simp [addEncryptedCreditLine, hc] at h
  | deactivate sender lineId h =>
    by_cases hc : sender = s.aggregator
    · by_cases hact : (s.encryptedLines lineId).isActive
      · simp only [deactivateCreditLine, if_pos hc, if_pos hact]
        exact hr
      · simp [deactivateCreditLine, hc, hact] at h
    · simp [deactivateCreditLine, hc] at h
  | request sender reqId h =>
    by_cases hc : sender = s.enterprise
    · by_cases hrev : s.aggregatedResult.isRevealed
      · simp [requestAggregation, hc, hrev] at h
      · simp only [requestAggregation, if_pos hc, if_neg hrev]
        show mapUpdate s.requestToAggregationId reqId 1 r = 1
        by_cases hk : r = reqId
        · rw [hk, mapUpdate_self]
        · rw [mapUpdate_ne _ _ _ _ hk]; exact hr
    · simp [requestAggregation, hc] at h
  | handle requestId c0 c1 proofOk hc0 hc1 h =>
    by_cases hreq : s.requestToAggregationId requestId = 1
    · by_cases hrev : s.aggregatedResult.isRevealed
      · simp [handleAggregationResult, hreq, hrev] at h
      · by_cases hp : proofOk
        · simp only [handleAggregationResult, if_pos hreq, if_neg hrev, if_pos hp]
          exact hr
        · simp [handleAggregationResult, hreq, hrev, hp] at h
    · simp [handleAggregationResult, hreq] at h
  | transfer sender newEnterprise h =>
    by_cases hc : sender = s.enterprise
    · simp only [transferEnterpriseOwnership, if_pos hc]
      exact hr
    · simp [transferEnterpriseOwnership, hc] at h

lemma reach_requestId_preserved {s s' : State} (r : Nat)
    (h : Relation.ReflTransGen Step s s')
    (hr : s.requestToAggregationId r = 1) :
    s'.requestToAggregationId r = 1 := by
  induction h with
  | refl => exact hr
  | tail hpre hstep ih => exact step_requestId_preserved r hstep ih

/-- Scenario state: deployed with `aggregator = 10`, `enterprise = 20`. -/
def exS0 : State := initialState 10 20

/-- Scenario state: line A `(available 500, utilized 100)` added. -/
def exS1 : State := (addEncryptedCreditLine exS0 10 1 500 100 1000).1

/-- Scenario state: line B `(available 300, utilized 50)` added. -/
def exS2 : State := (addEncryptedCreditLine exS1 10 2 300 50 1001).1

/-- Scenario state: decryption of the accumulators requested (handle `77`). -/
def exS3 : State := (requestAggregation exS2 20 77).1

/-- Scenario state: callback `(77, cleartexts (800, 150), valid proof)`
delivered. -/
def exS4 : State := (handleAggregationResult exS3 77 800 150 true).1

/-- Scenario state: a second decryption request (handle `78`) issued while
request `77` is still outstanding. -/
def exR2 : State := (requestAggregation exS3 20 78).1

/-- Scenario state: callback for request `77` delivered while `78` is also
outstanding. -/
def exR3 : State := (handleAggregationResult exR2 77 800 150 true).1

/-- Deployment with `aggregator = 0`, `enterprise = 5`. -/
def exD0 : State := initialState 0 5

/-- `exD0` after adding one line and deactivating it again. -/
def exD2 : State :=
  (deactivateCreditLine (addEncryptedCreditLine exD0 0 9 500 100 0).1 0 1).1

/-- C1: in every reachable contract state, the accumulator pair
`(encryptedTotalAvailable, encryptedTotalUtilized)` equals, homomorphically
(that is, modulo `2 ^ 32`), the sum of `encryptedAmount` (respectively
`encryptedUtilized`) over all credit-line records with `isActive = true`.
Reachability is closed under every successful `addEncryptedCreditLine` and
`deactivateCreditLine` (and all other operations), so the invariant holds
after every mutation, not just eventually. -/
theorem C1_accumulator_invariant (s : State) (h : Reachable s) :
    s.encryptedTotalAvailable = activeAmountSum s % 2 ^ 32 ∧
    s.encryptedTotalUtilized = activeUtilizedSum s % 2 ^ 32 :=
  ⟨(inv_reachable h).1, (inv_reachable h).2.1⟩

/-- Witness for C1 at a concrete reachable state (one line added). -/
theorem C1_accumulator_invariant_witness :
    exS1.encryptedTotalAvailable = activeAmountSum exS1 % 2 ^ 32 ∧
    exS1.encryptedTotalUtilized = activeUtilizedSum exS1 % 2 ^ 32 :=
  C1_accumulator_invariant exS1
    ⟨10, 20, Relation.ReflTransGen.single
      (Step.add exS0 10 1 500 100 1000 (by decide) (by decide) rfl)⟩

/-- C2 counterexample: starting from a fresh contract, the enterprise issues
a decryption request, no callback is delivered (the result is still
unrevealed), and a second `requestAggregation` nevertheless succeeds —
there is no `AlreadyPending` failure and more than one decryption request
can be outstanding. -/
theorem C2_counterexample :
    (requestAggregation (initialState 0 5) 5 100).2 = none ∧
    (requestAggregation (initialState 0 5) 5 100).1.aggregatedResult.isRevealed = false ∧
    (requestAggregation ((requestAggregation (initialState 0 5) 5 100).1) 5 101).2 = none :=
  ⟨rfl, rfl, rfl⟩

/-- C2 (amended): after one `requestAggregation` succeeds and before its
callback is fulfilled, a second `requestAggregation` by the owner also
succeeds; the only guard in `requestAggregation` is the `Already revealed`
check, so any number of decryption requests may be outstanding. -/
theorem C2_second_request_succeeds (s s' : State) (sender reqId reqId2 : Nat)
    (h : requestAggregation s sender reqId = (s', none)) :
    (requestAggregation s' s'.enterprise reqId2).2 = none := by
  by_cases hc : sender = s.enterprise
  · by_cases hrev : s.aggregatedResult.isRevealed
    · simp [requestAggregation, hc, hrev] at h
    · simp only [requestAggregation, if_pos hc, if_neg hrev, Prod.mk.injEq] at h
      obtain ⟨hA, -⟩ := h
      subst hA
      simp [requestAggregation, hrev]
  · simp [requestAggregation, hc] at h

/-- Witness for C2 (amended) on a fresh contract. -/
theorem C2_second_request_succeeds_witness :
    (requestAggregation ((requestAggregation (initialState 0 5) 5 100).1)
      ((requestAggregation (initialState 0 5) 5 100).1).enterprise 101).2 = none :=
  C2_second_request_succeeds (initialState 0 5) _ 5 100 101 rfl
/-- C3: once `aggregatedResult.isRevealed = true`, the published result is
immutable: no sequence of successful operations changes it, and a further
`requestAggregation` or `handleAggregationResult` (valid or not) fails and
leaves the state unchanged, so at most one result is ever published. -/
theorem C3_result_immutable (s s' : State)
    (hrev : s.aggregatedResult.isRevealed = true)
    (h : Relation.ReflTransGen Step s s') :
    s'.aggregatedResult = s.aggregatedResult ∧
    (∀ sender reqId, (requestAggregation s' sender reqId).1 = s' ∧
      (requestAggregation s' sender reqId).2 ≠ none) ∧
    (∀ requestId c0 c1 proofOk,
      (handleAggregationResult s' requestId c0 c1 proofOk).1 = s' ∧
      (handleAggregationResult s' requestId c0 c1 proofOk).2 ≠ none) := by
  have hres := reach_result_of_revealed h hrev
  have hrev' : s'.aggregatedResult.isRevealed = true := by rw [hres]; exact hrev
  refine ⟨hres, fun sender reqId => ?_, fun requestId c0 c1 proofOk => ?_⟩
  · by_cases hc : sender = s'.enterprise
    · simp [requestAggregation, hc, hrev']
    · simp [requestAggregation, hc]
  · by_cases hreq : s'.requestToAggregationId requestId = 1
    · simp [handleAggregationResult, hreq, hrev']
    · simp [handleAggregationResult, hreq]

/-- Witness for C3 at the concrete revealed state `exS4`. -/
theorem C3_result_immutable_witness :
    exS4.aggregatedResult = exS4.aggregatedResult ∧
    ((requestAggregation exS4 20 99).1 = exS4 ∧
      (requestAggregation exS4 20 99).2 ≠ none) ∧
    ((handleAggregationResult exS4 77 800 150 true).1 = exS4 ∧
      (handleAggregationResult exS4 77 800 150 true).2 ≠ none) := by
  obtain ⟨hA, hB, hC⟩ :=
    C3_result_immutable exS4 exS4 (by decide) Relation.ReflTransGen.refl
  exact ⟨hA, hB 20 99, hC 77 800 150 true⟩

/-- C4 counterexample: on a fresh contract (no record with id `7` was ever
created) `deactivateCreditLine` fails with the `Line already inactive`
error, not with a distinct `NotFound`; an existing-but-deactivated record
(id `1` in `exD2`) produces exactly the same error, so the two cases are
not distinguished. -/
theorem C4_counterexample :
    deactivateCreditLine exD0 0 7 = (exD0, some Err.LineAlreadyInactive) ∧
    deactivateCreditLine exD2 0 1 = (exD2, some Err.LineAlreadyInactive) :=
  ⟨rfl, rfl⟩

/-- C4 (amended): `deactivateCreditLine` has a single failure mode for both
an id that was never created (whose mapping slot holds the inactive zero
record) and an already-deactivated record: the one `require` yields the
`Line already inactive` error in either case, and the call leaves the
state unchanged. -/
theorem C4_single_inactivity_error (s : State) (lineId : Nat)
    (h : (s.encryptedLines lineId).isActive = false) :
    deactivateCreditLine s s.aggregator lineId = (s, some .LineAlreadyInactive) := by
  simp [deactivateCreditLine, h]

/-- Witness for C4 (amended): unknown id `7` on a fresh contract. -/
theorem C4_single_inactivity_error_witness :
    deactivateCreditLine exD0 exD0.aggregator 7 = (exD0, some .LineAlreadyInactive) :=
  C4_single_inactivity_error exD0 7 rfl

/-- C5 counterexample: before any result has been published, the owner's
`getAggregationResult` does not fail with a `NotRevealed` error — it
returns the zero-initialized result `(0, 0, false)`. -/
theorem C5_counterexample :
    getAggregationResult (initialState 0 5) 5 = .ok (0, 0, false) :=
  rfl

/-- C5 (amended): `getAggregationResult` performs no reveal check: called
by the owner it always returns the current `aggregatedResult` triple —
`(0, 0, false)`-style unrevealed contents before fulfillment, and the
published cleartext pair with `isRevealed = true` after a successful
`handleAggregationResult`. -/
theorem C5_get_result_unconditional (s : State) (sender : Nat)
    (h : sender = s.enterprise) :
    getAggregationResult s sender =
      .ok (s.aggregatedResult.totalAvailable, s.aggregatedResult.totalUtilized,
        s.aggregatedResult.isRevealed) ∧
    (∀ requestId c0 c1 s',
      handleAggregationResult s requestId c0 c1 true = (s', none) →
      getAggregationResult s' s'.enterprise = .ok (c0, c1, true)) := by
  constructor
  · simp [getAggregationResult, h]
  · intro requestId c0 c1 s' hok
    by_cases hreq : s.requestToAggregationId requestId = 1
    · by_cases hrev : s.aggregatedResult.isRevealed
      · simp [handleAggregationResult, hreq, hrev] at hok
      · simp [handleAggregationResult, hreq, hrev] at hok
        subst hok
        simp [getAggregationResult]
    · simp [handleAggregationResult, hreq] at hok

/-- Witness for C5 (amended): at `exS3` before fulfillment, and on the
successful callback leading to `exS4`. -/
theorem C5_get_result_unconditional_witness :
    getAggregationResult exS3 20 =
      .ok (exS3.aggregatedResult.totalAvailable, exS3.aggregatedResult.totalUtilized,
        exS3.aggregatedResult.isRevealed) ∧
    getAggregationResult exS4 exS4.enterprise = .ok (800, 150, true) := by
  obtain ⟨hA, hB⟩ := C5_get_result_unconditional exS3 20 rfl
  exact ⟨hA, hB 77 800 150 exS4 rfl⟩

/-- C6: delivering the same valid `(requestId, cleartexts, proof)` callback
twice publishes the result exactly once — the second call returns the
state unchanged with the `Already revealed` error. -/
theorem C6_fulfillment_idempotent (s s' : State) (requestId c0 c1 : Nat)
    (proofOk : Bool)
    (h : handleAggregationResult s requestId c0 c1 proofOk = (s', none)) :
    handleAggregationResult s' requestId c0 c1 proofOk =
      (s', some .AlreadyRevealed) := by
  by_cases hreq : s.requestToAggregationId requestId = 1
  · by_cases hrev : s.aggregatedResult.isRevealed
    · simp [handleAggregationResult, hreq, hrev] at h
    · by_cases hp : proofOk
      · simp only [handleAggregationResult, if_pos hreq, if_neg hrev, if_pos hp,
          Prod.mk.injEq] at h
        obtain ⟨hA, -⟩ := h
        subst hA
        simp [handleAggregationResult, hreq]
      · simp [handleAggregationResult, hreq, hrev, hp] at h
  · simp [handleAggregationResult, hreq] at h

/-- Witness for C6 on the concrete scenario callback. -/
theorem C6_fulfillment_idempotent_witness :
    handleAggregationResult exS4 77 800 150 true = (exS4, some .AlreadyRevealed) :=
  C6_fulfillment_idempotent exS3 exS4 77 800 150 true rfl

/-- C7: every operation is atomic on failure — whenever a call returns an
error, the returned state is exactly the input state (all `require`-style
checks precede every mutation); in particular a failed proof check leaves
the contract unchanged, the request still pending. -/
theorem C7_failure_atomicity (s : State) :
    (∀ sender bank a u ts e,
      (addEncryptedCreditLine s sender bank a u ts).2 = some e →
      (addEncryptedCreditLine s sender bank a u ts).1 = s) ∧
    (∀ sender lineId e,
      (deactivateCreditLine s sender lineId).2 = some e →
      (deactivateCreditLine s sender lineId).1 = s) ∧
    (∀ sender reqId e,
      (requestAggregation s sender reqId).2 = some e →
      (requestAggregation s sender reqId).1 = s) ∧
    (∀ requestId c0 c1 proofOk e,
      (handleAggregationResult s requestId c0 c1 proofOk).2 = some e →
      (handleAggregationResult s requestId c0 c1 proofOk).1 = s) ∧
    (∀ sender newEnterprise e,
      (transferEnterpriseOwnership s sender newEnterprise).2 = some e →
      (transferEnterpriseOwnership s sender newEnterprise).1 = s) ∧
    (∀ requestId c0 c1,
      s.requestToAggregationId requestId = 1 →
      s.aggregatedResult.isRevealed = false →
      handleAggregationResult s requestId c0 c1 false =
        (s, some .InvalidProof)) := by
  refine ⟨?_, ?_, ?_, ?_, ?_, ?_⟩
  · intro sender bank a u ts e he
    by_cases hc : sender = s.aggregator
    · simp [addEncryptedCreditLine, hc] at he
    · simp [addEncryptedCreditLine, hc]
  · intro sender lineId e he
    by_cases hc : sender = s.aggregator
    · by_cases hact : (s.encryptedLines lineId).isActive
      · simp [deactivateCreditLine, hc, hact] at he
      · simp [deactivateCreditLine, hc, hact]
    · simp [deactivateCreditLine, hc]
  · intro sender reqId e he
    by_cases hc : sender = s.enterprise
    · by_cases hrev : s.aggregatedResult.isRevealed
      · simp [requestAggregation, hc, hrev]
      · simp [requestAggregation, hc, hrev] at he
    · simp [requestAggregation, hc]
  · intro requestId c0 c1 proofOk e he
    by_cases hreq : s.requestToAggregationId requestId = 1
    · by_cases hrev : s.aggregatedResult.isRevealed
      · simp [handleAggregationResult, hreq, hrev]
      · by_cases hp : proofOk
        · simp [handleAggregationResult, hreq, hrev, hp] at he
        · simp [handleAggregationResult, hreq, hrev, hp]
    · simp [handleAggregationResult, hreq]
  · intro sender newEnterprise e he
    by_cases hc : sender = s.enterprise
    · simp [transferEnterpriseOwnership, hc] at he
    · simp [transferEnterpriseOwnership, hc]
  · intro requestId c0 c1 hreq hrev
    simp [handleAggregationResult, hreq, hrev]

/-- Witness for C7: a failed deactivation of an unknown id on a fresh
contract, and a failed proof check while request `77` is pending. -/
theorem C7_failure_atomicity_witness :
    (deactivateCreditLine exD0 0 7).1 = exD0 ∧
    handleAggregationResult exS3 77 800 150 false = (exS3, some .InvalidProof) := by
  refine ⟨(C7_failure_atomicity exD0).2.1 0 7 Err.LineAlreadyInactive rfl, ?_⟩
  exact (C7_failure_atomicity exS3).2.2.2.2.2 77 800 150 (by decide) (by decide)
/-- C8: end-to-end scenario with the faithful ciphertext capability: from a
fresh contract, the aggregator adds line A `(500, 100)` and line B
`(300, 50)`, the enterprise requests a reveal (handle `77`), the
accumulators at that point decrypt to `(800, 150)`, and after the valid
callback with cleartexts `(800, 150)` the owner's `getAggregationResult`
returns `(800, 150, revealed = true)`. -/
theorem C8_end_to_end_scenario :
    (addEncryptedCreditLine exS0 10 1 500 100 1000).2 = none ∧
    (addEncryptedCreditLine exS1 10 2 300 50 1001).2 = none ∧
    (requestAggregation exS2 20 77).2 = none ∧
    exS3.encryptedTotalAvailable = 800 ∧
    exS3.encryptedTotalUtilized = 150 ∧
    (handleAggregationResult exS3 77 800 150 true).2 = none ∧
    getAggregationResult exS4 20 = .ok (800, 150, true) :=
  ⟨rfl, rfl, rfl, by decide, by decide, rfl, rfl⟩

/-- C9: every mutating or sensitive-read operation fails closed with the
corresponding authorization error and leaves the state unchanged when the
caller lacks the required role: `addEncryptedCreditLine` and
`deactivateCreditLine` require the aggregator, while `requestAggregation`,
`getAggregationResult`, `getCreditLineInfo` and
`transferEnterpriseOwnership` require the enterprise owner. -/
theorem C9_role_checks_fail_closed (s : State) (sender : Nat) :
    (sender ≠ s.aggregator → ∀ bank a u ts,
      addEncryptedCreditLine s sender bank a u ts =
        (s, some .CallerNotAuthorized)) ∧
    (sender ≠ s.aggregator → ∀ lineId,
      deactivateCreditLine s sender lineId = (s, some .CallerNotAuthorized)) ∧
    (sender ≠ s.enterprise → ∀ reqId,
      requestAggregation s sender reqId = (s, some .EnterpriseOnly)) ∧
    (sender ≠ s.enterprise →
      getAggregationResult s sender = .error .EnterpriseOnly) ∧
    (sender ≠ s.enterprise → ∀ lineId,
      getCreditLineInfo s sender lineId = .error .EnterpriseOnly) ∧
    (sender ≠ s.enterprise → ∀ newEnterprise,
      transferEnterpriseOwnership s sender newEnterprise =
        (s, some .EnterpriseOnly)) := by
  refine ⟨?_, ?_, ?_, ?_, ?_, ?_⟩
  · intro hc bank a u ts
    simp [addEncryptedCreditLine, hc]
  · intro hc lineId
    simp [deactivateCreditLine, hc]
  · intro hc reqId
    simp [requestAggregation, hc]
  · intro hc
    simp [getAggregationResult, hc]
  · intro hc lineId
    simp [getCreditLineInfo, hc]
  · intro hc newEnterprise
    simp [transferEnterpriseOwnership, hc]

/-- Witness for C9: a non-owner, non-aggregator caller (`1`) is rejected by
`requestAggregation` and `addEncryptedCreditLine` on a fresh contract,
leaving the state unchanged. -/
theorem C9_role_checks_fail_closed_witness :
    requestAggregation exD0 1 100 = (exD0, some Err.EnterpriseOnly) ∧
    addEncryptedCreditLine exD0 1 9 500 100 0 = (exD0, some Err.CallerNotAuthorized) := by
  refine ⟨(C9_role_checks_fail_closed exD0 1).2.2.1 (by decide) 100, ?_⟩
  exact (C9_role_checks_fail_closed exD0 1).1 (by decide) 9 500 100 0

/-- C10 (implicit): entries of `requestToAggregationId` are never cleared,
so every request id ever issued keeps its entry along any sequence of
successful operations and `handleAggregationResult` never answers the
`Invalid request` error for it; with several outstanding requests, once a
callback that passes verification publishes the result, every later
callback — even a valid one for a different issued request — fails with
the `Already revealed` error. -/
theorem C10_issued_requests_accepted_forever (s s' : State) (r : Nat)
    (hr : s.requestToAggregationId r = 1)
    (h : Relation.ReflTransGen Step s s') :
    s'.requestToAggregationId r = 1 ∧
    (∀ c0 c1 proofOk,
      (handleAggregationResult s' r c0 c1 proofOk).2 ≠ some .InvalidRequest) ∧
    (∀ c0 c1 s'', handleAggregationResult s' r c0 c1 true = (s'', none) →
      ∀ r' c0' c1' proofOk', s''.requestToAggregationId r' = 1 →
        handleAggregationResult s'' r' c0' c1' proofOk' =
          (s'', some .AlreadyRevealed)) := by
  have hr' : s'.requestToAggregationId r = 1 := reach_requestId_preserved r h hr
  refine ⟨hr', fun c0 c1 proofOk => ?_, fun c0 c1 s'' hok => ?_⟩
  · by_cases hrev : s'.aggregatedResult.isRevealed
    · simp [handleAggregationResult, hr', hrev]
    · by_cases hp : proofOk
      · simp [handleAggregationResult, hr', hrev, hp]
      · simp [handleAggregationResult, hr', hrev, hp]
  · by_cases hrev : s'.aggregatedResult.isRevealed
    · simp [handleAggregationResult, hr', hrev] at hok
    · simp [handleAggregationResult, hr', hrev] at hok
      subst hok
      intro r' c0' c1' proofOk' hr''
      simp only [handleAggregationResult, if_pos hr'']
      simp

/-- Witness for C10 on the two-outstanding-requests scenario: ids `77` and
`78` are both issued, the callback for `77` publishes the result, and the
valid callback for the other issued request `78` then fails with the
`Already revealed` error. -/
theorem C10_issued_requests_accepted_forever_witness :
    exR2.requestToAggregationId 77 = 1 ∧
    (handleAggregationResult exR2 77 800 150 true).2 ≠ some Err.InvalidRequest ∧
    handleAggregationResult exR3 78 900 200 true = (exR3, some Err.AlreadyRevealed) := by
  obtain ⟨hA, hB, hC⟩ :=
    C10_issued_requests_accepted_forever exR2 exR2 77 (by decide)
      Relation.ReflTransGen.refl
  exact ⟨hA, hB 800 150 true, hC 800 150 exR3 rfl 78 900 200 true (by decide)⟩

end CreditLineFHE
